import Mathlib

/-!
Verification of the `@manzt/burn` DOOM-fire effect (`src/burn.js`).

The grid of intensities is the `Renderer`'s `#pixels` `Uint8Array`, modelled
as a `List Nat` (every stored value is reduced mod 256, as `ToUint8` does).
Each call of `#spread` consumes two `Math.random()` results, turned into a
decay (`decayDraw`) and a direction (`dirDraw`); `update` is parametrised by
an oracle `Rnd` giving those two derived draws per grid cell `(x, y)`.
-/

namespace Burn

/-- A palette entry: an RGB triple of channel values. -/
abbrev Color := Nat × Nat × Nat

/-- `ColorPallete` from `types.ts`: an ordered list of colors. -/
abbrev Pal := List Color

/-- Random oracle: for cell `(x, y)`, the decay value and direction flag
(`true` = `+1` column offset) that the two `Math.random()` draws in
`#spread` produce for this cell's spread step. -/
abbrev Rnd := Nat → Nat → Nat × Bool

/-- `decay = Math.floor(Math.random() * 3)` for a raw draw `r ∈ [0, 1)`. -/
def decayDraw (r : ℚ) : Nat := (⌊r * 3⌋).toNat

/-- `Math.random() > 0.5 ? 1 : -1`: `true` means the `+1` column offset. -/
def dirDraw (r : ℚ) : Bool := 1 / 2 < r

/-- JS `Uint8Array` indexed store `px[i] = v`: a canonical numeric index that
is in range stores `ToUint8 v = v % 256`; an out-of-range index (negative or
`≥ length`) is silently discarded. -/
def uint8set (px : List Nat) (i : Int) (v : Nat) : List Nat :=
  if 0 ≤ i ∧ i.toNat < px.length then px.set i.toNat (v % 256) else px

/-- The destination index computed in `#spread`:
`to = from - width + (Math.random() > 0.5 ? 1 : -1)`. -/
def spreadDest (w from_ : Nat) (dirRight : Bool) : Int :=
  (from_ : Int) - w + (if dirRight then 1 else -1)

/-- `Renderer.#spread(from)` from `src/burn.js` lines 124-132:
guard `from < width` returns early; otherwise
`pixels[to] = Math.max(pixels[from] - decay, 0)` (`Nat` subtraction is
exactly `max(a - b, 0)`). -/
def spread (w : Nat) (px : List Nat) (from_ decay : Nat) (dirRight : Bool) :
    List Nat :=
  if from_ < w then px
  else uint8set px (spreadDest w from_ dirRight) (px.getD from_ 0 - decay)

/-- `Renderer.update()` from `src/burn.js` lines 144-150: column-major loop,
`x` from 0 to `width-1`, inner `y` from 1 to `height-1`, calling
`#spread(y * width + x)`. -/
def update (w h : Nat) (rnd : Rnd) (px : List Nat) : List Nat :=
  (List.range w).foldl
    (fun q x =>
      (List.range (h - 1)).foldl
        (fun q2 i =>
          spread w q2 ((i + 1) * w + x) (rnd x (i + 1)).1 (rnd x (i + 1)).2)
        q)
    px

/-- The pixel buffer produced by `Renderer.reset()` (`src/burn.js` lines
134-142): a fresh zero buffer of `width * height` bytes, then
`pixels[(height-1)*width + x] = 36` for each column `x`.  For `height = 0`
the written index is negative and the store is discarded. -/
def resetPx (w h : Nat) : List Nat :=
  (List.range w).foldl
    (fun q (x : Nat) => uint8set q (((h : Int) - 1) * w + x) 36)
    (List.replicate (w * h) 0)

example : resetPx 4 4 = [0,0,0,0,0,0,0,0,0,0,0,0,36,36,36,36] := by decide

example : update 4 4 (fun _ _ => (0, false)) (resetPx 4 4) =
    [0,0,36,0,0,0,0,36,36,36,36,0,36,36,36,36] := by decide

example :
    (update 4 4 (fun x y => if x = 3 ∧ y = 3 then (2, true) else (0, false))
      (resetPx 4 4)).getD 12 0 = 34 := by decide

/-- One cell of `Renderer.render()`'s loop (`src/burn.js` lines 160-173):
`let [red, green, blue] = this.#pallete[intensity]` throws a `TypeError`
(modelled as `none`) when the palette has no entry at `intensity`; otherwise
the four `ImageData` bytes for the cell are produced: all-zero with alpha 0
for intensity 0 (the buffer starts zeroed and only the alpha byte is
written), else the clamped RGB (`Uint8ClampedArray` store) with alpha 255. -/
def renderPixel (pal : Pal) (intensity : Nat) : Option (List Nat) :=
  match pal[intensity]? with
  | none => none
  | some c =>
    some (if intensity = 0 then [0, 0, 0, 0]
      else [min c.1 255, min c.2.1 255, min c.2.2 255, 255])

/-- `Renderer.render()` restricted to its pixel output: the `ImageData` byte
quadruples for each cell in order; `none` when the palette lookup throws. -/
def render (pal : Pal) : List Nat → Option (List (List Nat))
  | [] => some []
  | n :: rest => do
    let p ← renderPixel pal n
    let out ← render pal rest
    pure (p :: out)

/-- `DEFAULT_PALLETE` from `src/burn.js` lines 20-58. -/
def DEFAULT_PALLETE : Pal :=
  [(0x07,0x07,0x07), (0x1F,0x07,0x07), (0x2F,0x0F,0x07), (0x47,0x0F,0x07),
   (0x57,0x17,0x07), (0x67,0x1F,0x07), (0x77,0x1F,0x07), (0x8F,0x27,0x07),
   (0x9F,0x2F,0x07), (0xAF,0x3F,0x07), (0xBF,0x47,0x07), (0xC7,0x47,0x07),
   (0xDF,0x4F,0x07), (0xDF,0x57,0x07), (0xDF,0x57,0x07), (0xD7,0x5F,0x07),
   (0xD7,0x5F,0x07), (0xD7,0x67,0x0F), (0xCF,0x6F,0x0F), (0xCF,0x77,0x0F),
   (0xCF,0x7F,0x0F), (0xCF,0x87,0x17), (0xC7,0x87,0x17), (0xC7,0x8F,0x17),
   (0xC7,0x97,0x1F), (0xBF,0x9F,0x1F), (0xBF,0x9F,0x1F), (0xBF,0xA7,0x27),
   (0xBF,0xA7,0x27), (0xBF,0xAF,0x2F), (0xB7,0xAF,0x2F), (0xB7,0xB7,0x2F),
   (0xB7,0xB7,0x37), (0xCF,0xCF,0x6F), (0xDF,0xDF,0x9F), (0xEF,0xEF,0xC7),
   (0xFF,0xFF,0xFF)]

example : DEFAULT_PALLETE.length = 37 := by decide

/-- `Math.floor(canvasPx / scale)`: how the `Renderer`'s `#width`/`#height`
getters derive a grid dimension (`src/burn.js` lines 101-109). -/
def gridDim (canvasPx : Nat) (scale : ℚ) : Nat :=
  (⌊(canvasPx : ℚ) / scale⌋).toNat

/-- The state of a `Renderer` (its canvas-derived dimensions, palette and
pixel buffer). -/
structure RendererSt where
  w : Nat
  h : Nat
  pallete : Pal
  pixels : List Nat
  deriving DecidableEq

/-- `Renderer`'s `set pallete` (`src/burn.js` lines 116-122): throws a
`TypeError` unless the new palette has exactly 37 entries. -/
def rendererSetPallete (st : RendererSt) (upd : Pal) : Except String RendererSt :=
  if upd.length ≠ 37 then .error "Color pallette must be 37 elements."
  else .ok { st with pallete := upd }

/-- The `Renderer` constructor (`src/burn.js` lines 82-99): stores scale and
palette (no length validation), allocates the pixel buffer and calls
`reset()`, whose trailing `render()` throws iff a palette lookup fails. -/
def rendererInit (w h : Nat) (pal : Pal) : Except String RendererSt :=
  let px := resetPx w h
  match render pal px with
  | none => .error "TypeError: pallete entry is not iterable"
  | some _ => .ok ⟨w, h, pal, px⟩

/-- The closure state of `burn()`'s controller (`src/burn.js` lines
200-248): the captured `pallete`/`interval` variables, the timer handle
`id`, the owned renderer; `nextId` models fresh `setTimeout` handles and
`ticks` counts completed `animate()` passes (update + render). -/
structure CtrlSt where
  pallete : Pal
  interval : Nat
  id : Option Nat
  nextId : Nat
  ticks : Nat
  renderer : RendererSt
  deriving DecidableEq

/-- The controller's `set pallete` (`src/burn.js` lines 235-237): assigns
the captured variable, with no validation and no other effect. -/
def controllerSetPallete (c : CtrlSt) (upd : Pal) : CtrlSt :=
  { c with pallete := upd }

/-- `animate()` (`src/burn.js` lines 211-216): pushes the captured palette
through the renderer's validating setter, then `update()`, then `render()`,
then schedules the next tick (fresh timer id).  A throw anywhere aborts the
rest (`Except.error`). -/
def animate (rnd : Rnd) (c : CtrlSt) : Except String CtrlSt :=
  match rendererSetPallete c.renderer c.pallete with
  | .error e => .error e
  | .ok r =>
    let px := update r.w r.h rnd r.pixels
    match render r.pallete px with
    | none => .error "TypeError: pallete entry is not iterable"
    | some _ =>
      .ok { c with renderer := { r with pixels := px }, id := some c.nextId,
                   nextId := c.nextId + 1, ticks := c.ticks + 1 }

/-- `controller.start()` (`src/burn.js` lines 220-223): no-op when a timer
id exists, otherwise runs `animate()`. -/
def start (rnd : Rnd) (c : CtrlSt) : Except String CtrlSt :=
  if c.id.isSome then .ok c else animate rnd c

/-- `controller.stop()` (`src/burn.js` lines 224-228): no-op when stopped,
otherwise clears the pending timer. -/
def stop (c : CtrlSt) : CtrlSt :=
  if c.id.isNone then c else { c with id := none }

/-- The options bag of `burn()` (`types.ts`): all fields optional. -/
structure BurnOptions where
  scale : Option ℚ := none
  interval : Option Nat := none
  height : Option Nat := none
  pallete : Option Pal := none

/-- The grid height used by `burn()`: the destructuring at `src/burn.js`
lines 201-205 reads only `scale`, `interval` and `pallete` from the options,
so the height always comes from the canvas via the `#height` getter. -/
def burnGridHeight (canvasHeight : Nat) (o : BurnOptions) : Nat :=
  gridDim canvasHeight (o.scale.getD (7 / 2))

/-- `burn()` (`src/burn.js` lines 200-248): applies option defaults
(`scale = 3.5`, `interval = 30`, `pallete = DEFAULT_PALLETE`), constructs
the renderer, builds the controller, and calls `controller.start()` before
returning it. -/
def burn (canvasW canvasH : Nat) (opts : BurnOptions) (rnd : Rnd) :
    Except String CtrlSt :=
  let scale := opts.scale.getD (7 / 2)
  let interval := opts.interval.getD 30
  let pal := opts.pallete.getD DEFAULT_PALLETE
  match rendererInit (gridDim canvasW scale) (burnGridHeight canvasH opts) pal with
  | .error e => .error e
  | .ok r => start rnd ⟨pal, interval, none, 0, 0, r⟩

theorem gridDim_one (n : Nat) : gridDim n 1 = n := by
  simp [gridDim]

example : ((burn 2 2 ⟨some 1, none, none, none⟩ (fun _ _ => (0, false))).toOption.map
    CtrlSt.ticks) = some 1 := by
  simp only [burn, burnGridHeight, Option.getD, gridDim_one]
  decide

example : burnGridHeight 100 ⟨some 1, none, some 5, none⟩ = 100 := by
  simp only [burnGridHeight, Option.getD, gridDim_one]

/-! ### Helper lemmas -/

theorem foldl_pres {α β : Type} {f : α → β → α} (P : α → Prop) :
    ∀ (l : List β) (a : α), P a → (∀ x b, b ∈ l → P x → P (f x b)) →
      P (l.foldl f a)
  | [], _, ha, _ => ha
  | b :: l, a, ha, hs =>
    foldl_pres P l (f a b) (hs a b (List.mem_cons_self b l) ha)
      (fun x b' hb' => hs x b' (List.mem_cons_of_mem b hb'))

theorem getD_replicate_zero (n i : Nat) :
    (List.replicate n (0 : Nat)).getD i 0 = 0 := by
  simp [List.getD_eq_getElem?_getD, List.getElem?_replicate]
  split <;> rfl

theorem uint8set_length (px : List Nat) (i : Int) (v : Nat) :
    (uint8set px i v).length = px.length := by
  unfold uint8set; split <;> simp [List.length_set]

theorem uint8set_getD_ne (px : List Nat) (i : Int) (v : Nat) (j : Nat)
    (hj : (j : Int) ≠ i) : (uint8set px i v).getD j 0 = px.getD j 0 := by
  unfold uint8set; split
  · rename_i h
    have hne : i.toNat ≠ j := by
      intro e
      apply hj
      rw [← e, Int.toNat_of_nonneg h.1]
    simp [List.getD_eq_getElem?_getD, List.getElem?_set_ne hne]
  · rfl

theorem uint8set_getD_self (px : List Nat) (i : Int) (v : Nat)
    (h0 : 0 ≤ i) (hl : i.toNat < px.length) :
    (uint8set px i v).getD i.toNat 0 = v % 256 := by
  unfold uint8set
  rw [if_pos ⟨h0, hl⟩]
  simp [List.getD_eq_getElem?_getD, List.getElem?_set_self hl]

theorem uint8set_getD_le (px : List Nat) (i : Int) (v B : Nat)
    (hpx : ∀ j, px.getD j 0 ≤ B) (hv : v % 256 ≤ B) :
    ∀ j, (uint8set px i v).getD j 0 ≤ B := by
  intro j
  by_cases hj : (j : Int) = i
  · have h0 : 0 ≤ i := hj ▸ Int.natCast_nonneg j
    have hjt : i.toNat = j := by rw [← hj, Int.toNat_natCast]
    by_cases hl : i.toNat < px.length
    · have hs := uint8set_getD_self px i v h0 hl
      rw [hjt] at hs
      rw [hs]; exact hv
    · unfold uint8set
      rw [if_neg (fun hc => hl hc.2)]
      exact hpx j
  · rw [uint8set_getD_ne px i v j (fun e => hj e)]
    exact hpx j

theorem spread_length (w : Nat) (px : List Nat) (f d : Nat) (b : Bool) :
    (spread w px f d b).length = px.length := by
  unfold spread; split
  · rfl
  · exact uint8set_length ..

theorem spread_le (w : Nat) (px : List Nat) (f d : Nat) (b : Bool)
    (hpx : ∀ j, px.getD j 0 ≤ 36) : ∀ j, (spread w px f d b).getD j 0 ≤ 36 := by
  unfold spread; split
  · exact hpx
  · refine uint8set_getD_le _ _ _ _ hpx ?_
    calc (px.getD f 0 - d) % 256 ≤ px.getD f 0 - d := Nat.mod_le _ _
      _ ≤ px.getD f 0 := Nat.sub_le _ _
      _ ≤ 36 := hpx f

theorem update_length (w h : Nat) (rnd : Rnd) (px : List Nat) :
    (update w h rnd px).length = px.length := by
  unfold update
  refine foldl_pres (fun q : List Nat => q.length = px.length) _ _ rfl ?_
  intro q x _ hq
  refine foldl_pres (fun q2 : List Nat => q2.length = px.length) _ _ hq ?_
  intro q2 i _ hq2
  rw [spread_length]; exact hq2

theorem update_le (w h : Nat) (rnd : Rnd) (px : List Nat)
    (hpx : ∀ j, px.getD j 0 ≤ 36) : ∀ j, (update w h rnd px).getD j 0 ≤ 36 := by
  unfold update
  refine foldl_pres (fun q : List Nat => ∀ j, q.getD j 0 ≤ 36) _ _ hpx ?_
  intro q x _ hq
  refine foldl_pres (fun q2 : List Nat => ∀ j, q2.getD j 0 ≤ 36) _ _ hq ?_
  intro q2 i _ hq2
  exact spread_le _ _ _ _ _ hq2

theorem uint8set_neg (px : List Nat) (i : Int) (v : Nat) (hi : i < 0) :
    uint8set px i v = px := by
  unfold uint8set
  rw [if_neg (fun hc => absurd hc.1 (by omega))]

theorem update_getD_high (w h : Nat) (rnd : Rnd) (px : List Nat) (i : Nat)
    (hi : (h - 1) * w < i) : (update w h rnd px).getD i 0 = px.getD i 0 := by
  unfold update
  refine foldl_pres (fun q : List Nat => q.getD i 0 = px.getD i 0) _ _ rfl ?_
  intro q x hx hq
  rw [List.mem_range] at hx
  refine foldl_pres (fun q2 : List Nat => q2.getD i 0 = px.getD i 0) _ _ hq ?_
  intro q2 k hk hq2
  rw [List.mem_range] at hk
  rw [← hq2]
  unfold spread
  split
  · rfl
  · have h1 : (k + 1) * w ≤ (h - 1) * w := Nat.mul_le_mul_right w (by omega)
    have hne : (i : Int) ≠ spreadDest w ((k + 1) * w + x) (rnd x (k + 1)).2 := by
      unfold spreadDest
      split <;> omega
    rw [uint8set_getD_ne _ _ _ _ hne]

theorem resetPx_fold_length (w h k : Nat) :
    ((List.range k).foldl
      (fun q (x : Nat) => uint8set q (((h : Int) - 1) * w + x) 36)
      (List.replicate (w * h) 0)).length = w * h := by
  refine foldl_pres (fun q : List Nat => q.length = w * h) _ _
    (List.length_replicate _ _) ?_
  intro q x _ hq
  rw [uint8set_length]; exact hq

theorem resetPx_fold (w h' : Nat) :
    ∀ (k : Nat), k ≤ w → ∀ i,
      ((List.range k).foldl
          (fun q (x : Nat) =>
            uint8set q ((((h' + 1 : Nat) : Int) - 1) * w + x) 36)
          (List.replicate (w * (h' + 1)) 0)).getD i 0
        = if h' * w ≤ i ∧ i < h' * w + k then 36 else 0 := by
  intro k
  induction k with
  | zero =>
    intro _ i
    rw [if_neg (by omega)]
    exact getD_replicate_zero _ _
  | succ k ih =>
    intro hk i
    simp only [List.range_succ, List.foldl_append, List.foldl_cons, List.foldl_nil]
    have hkw : k ≤ w := by omega
    have hidx : ((((h' + 1 : Nat) : Int) - 1) * (w : Int) + (k : Int))
        = ((h' * w + k : Nat) : Int) := by push_cast; ring
    by_cases hii : i = h' * w + k
    · subst hii
      rw [hidx, if_pos (by omega)]
      have hcm : w * (h' + 1) = h' * w + w := by ring
      have hlen : ((h' * w + k : Nat) : Int).toNat
          < ((List.range k).foldl
              (fun q (x : Nat) =>
                uint8set q ((((h' + 1 : Nat) : Int) - 1) * w + x) 36)
              (List.replicate (w * (h' + 1)) 0)).length := by
        rw [Int.toNat_natCast, resetPx_fold_length w (h' + 1) k]
        omega
      have hs := uint8set_getD_self _ _ 36 (Int.natCast_nonneg (h' * w + k)) hlen
      rw [Int.toNat_natCast] at hs
      rw [hs]
    · have hne : ((i : Nat) : Int) ≠ ((h' * w + k : Nat) : Int) := by
        exact_mod_cast hii
      rw [hidx, uint8set_getD_ne _ _ _ _ hne, ih hkw i]
      by_cases hc : h' * w ≤ i ∧ i < h' * w + k
      · rw [if_pos hc, if_pos (by omega)]
      · rw [if_neg hc, if_neg (by omega)]

theorem resetPx_getD (w h i : Nat) :
    (resetPx w h).getD i 0 = if (h - 1) * w ≤ i ∧ i < w * h then 36 else 0 := by
  rcases Nat.eq_zero_or_pos h with h0 | hpos
  · subst h0
    rw [if_neg (by omega)]
    unfold resetPx
    refine foldl_pres (fun q : List Nat => q.getD i 0 = 0) _ _
      (getD_replicate_zero _ _) ?_
    intro q x hx hq
    rw [List.mem_range] at hx
    rw [uint8set_neg _ _ _ (by push_cast; omega)]
    exact hq
  · obtain ⟨h', rfl⟩ : ∃ h', h = h' + 1 := ⟨h - 1, by omega⟩
    unfold resetPx
    rw [resetPx_fold w h' w le_rfl i]
    have hcm : w * (h' + 1) = h' * w + w := by ring
    simp only [Nat.add_sub_cancel]
    by_cases hc : h' * w ≤ i ∧ i < h' * w + w
    · rw [if_pos hc, if_pos (by omega)]
    · rw [if_neg hc, if_neg (by omega)]

theorem resetPx_length (w h : Nat) : (resetPx w h).length = w * h :=
  resetPx_fold_length w h w

theorem resetPx_le (w h : Nat) : ∀ j, (resetPx w h).getD j 0 ≤ 36 := by
  unfold resetPx
  refine foldl_pres (fun q : List Nat => ∀ j, q.getD j 0 ≤ 36) _ _
    (fun j => by rw [getD_replicate_zero]; omega) ?_
  intro q x _ hq
  exact uint8set_getD_le _ _ _ _ hq (by omega)

/-- The value `render` produces for one cell when the palette lookup
succeeds (used to characterise `render`). -/
def renderCell (pal : Pal) (n : Nat) : List Nat :=
  if n = 0 then [0, 0, 0, 0]
  else [min (pal.getD n (0, 0, 0)).1 255, min (pal.getD n (0, 0, 0)).2.1 255,
        min (pal.getD n (0, 0, 0)).2.2 255, 255]

theorem renderPixel_eq (pal : Pal) (n : Nat) (h : n < pal.length) :
    renderPixel pal n = some (renderCell pal n) := by
  unfold renderPixel renderCell
  rw [List.getElem?_eq_getElem h]
  simp [List.getD_eq_getElem?_getD, List.getElem?_eq_getElem h]

theorem render_eq_map (pal : Pal) :
    ∀ (px : List Nat), (∀ v ∈ px, v < pal.length) →
      render pal px = some (px.map (renderCell pal)) := by
  intro px
  induction px with
  | nil => intro _; rfl
  | cons n rest ih =>
    intro hv
    have hn : n < pal.length := hv n (List.mem_cons_self n rest)
    have hrest := ih (fun v hvr => hv v (List.mem_cons_of_mem n hvr))
    unfold render
    rw [renderPixel_eq pal n hn]
    simp [hrest]

theorem getD_map_renderCell (pal : Pal) (px : List Nat) (i : Nat)
    (hi : i < px.length) :
    (px.map (renderCell pal)).getD i [] = renderCell pal (px.getD i 0) := by
  rw [List.getD_eq_getElem?_getD, List.getElem?_map,
    List.getElem?_eq_getElem hi, List.getD_eq_getElem?_getD,
    List.getElem?_eq_getElem hi]
  rfl

/-- The grid states reachable by `reset()` followed by any number of
`update()` calls (with arbitrary random draws). -/
inductive Reachable (w h : Nat) : List Nat → Prop where
  | reset : Reachable w h (resetPx w h)
  | step : ∀ (px : List Nat) (rnd : Rnd), Reachable w h px →
      Reachable w h (update w h rnd px)

theorem getD_mem {α : Type} (l : List α) (i : Nat) (d : α) (h : i < l.length) :
    l.getD i d ∈ l := by
  rw [List.getD_eq_getElem?_getD, List.getElem?_eq_getElem h]
  exact List.getElem_mem h

/-! ### Claims -/

/-- C1: for every grid and every source cell, the spread step targets
destination index = source index minus the grid width, plus 1 or minus 1
according to the direction draw; the value written there is
`max(source_value - decay, 0)`, where the decay derived from a uniform draw
`r1 ∈ [0, 1)` lies in `{0, 1, 2}`; every other cell is unchanged; and a
source in row 0 (`from < width`) is a no-op. -/
theorem spread_rule (w : Nat) (px : List Nat) (from_ : Nat) (r1 r2 : ℚ)
    (hr0 : 0 ≤ r1) (hr1 : r1 < 1) :
    decayDraw r1 ≤ 2 ∧ ((decayDraw r1 : Int)) = ⌊r1 * 3⌋ ∧
    (from_ < w → spread w px from_ (decayDraw r1) (dirDraw r2) = px) ∧
    (w ≤ from_ → px.getD from_ 0 ≤ 255 →
      ∀ (j : Nat),
        ((j : Int) = (from_ : Int) - w + (if dirDraw r2 then 1 else -1) →
          j < px.length →
          ((spread w px from_ (decayDraw r1) (dirDraw r2)).getD j 0 : Int)
            = max ((px.getD from_ 0 : Int) - decayDraw r1) 0) ∧
        ((j : Int) ≠ (from_ : Int) - w + (if dirDraw r2 then 1 else -1) →
          (spread w px from_ (decayDraw r1) (dirDraw r2)).getD j 0
            = px.getD j 0)) := by
  have hd3 : ⌊r1 * 3⌋ < 3 := by
    rw [Int.floor_lt]
    push_cast
    linarith
  refine ⟨by unfold decayDraw; omega, ?_, ?_, ?_⟩
  · unfold decayDraw
    rw [Int.toNat_of_nonneg (Int.floor_nonneg.mpr (by positivity))]
  · intro hlt
    unfold spread
    rw [if_pos hlt]
  · intro hw hsrc j
    constructor
    · intro hj hjl
      unfold spread
      rw [if_neg (not_lt.mpr hw)]
      have hj' : (j : Int) = spreadDest w from_ (dirDraw r2) := by
        unfold spreadDest; exact hj
      rw [← hj']
      have hs := uint8set_getD_self px (j : Int)
        (px.getD from_ 0 - decayDraw r1) (Int.natCast_nonneg j)
        (by rw [Int.toNat_natCast]; exact hjl)
      rw [Int.toNat_natCast] at hs
      rw [hs]
      have hv : (px.getD from_ 0 - decayDraw r1) % 256
          = px.getD from_ 0 - decayDraw r1 := Nat.mod_eq_of_lt (by omega)
      rw [hv]
      omega
    · intro hj
      unfold spread
      rw [if_neg (not_lt.mpr hw)]
      apply uint8set_getD_ne
      unfold spreadDest
      exact hj

theorem spread_rule_witness :
    decayDraw 0 ≤ 2 ∧
    spread 4 (resetPx 4 4) 2 (decayDraw 0) (dirDraw 0) = resetPx 4 4 := by
  have h := spread_rule 4 (resetPx 4 4) 2 0 0 (by norm_num) (by norm_num)
  exact ⟨h.1, h.2.2.1 (by norm_num)⟩

/-- C2: for every grid state reachable by `reset()` followed by any number
of `update()` calls, every cell's intensity lies in `[0, 36]`. -/
theorem intensity_range_invariant (w h : Nat) (px : List Nat)
    (hr : Reachable w h px) : ∀ i, 0 ≤ px.getD i 0 ∧ px.getD i 0 ≤ 36 := by
  induction hr with
  | reset => exact fun i => ⟨Nat.zero_le _, resetPx_le w h i⟩
  | step px rnd _ ih =>
    exact fun i =>
      ⟨Nat.zero_le _, update_le w h rnd px (fun j => (ih j).2) i⟩

theorem intensity_range_invariant_witness :
    0 ≤ (resetPx 4 4).getD 12 0 ∧ (resetPx 4 4).getD 12 0 ≤ 36 :=
  intensity_range_invariant 4 4 (resetPx 4 4) Reachable.reset 12

/-- C3: immediately after `reset()`, every cell in the bottom row equals 36
and every cell in every other row equals 0, for every width and height. -/
theorem reset_grid (w h x y : Nat) (hx : x < w) (hy : y < h) :
    (resetPx w h).length = w * h ∧
    (y = h - 1 → (resetPx w h).getD (y * w + x) 0 = 36) ∧
    (y ≠ h - 1 → (resetPx w h).getD (y * w + x) 0 = 0) := by
  obtain ⟨h', rfl⟩ : ∃ h', h = h' + 1 := ⟨h - 1, by omega⟩
  have hs : h' + 1 - 1 = h' := by omega
  have hcm : w * (h' + 1) = h' * w + w := by ring
  refine ⟨resetPx_length w (h' + 1), ?_, ?_⟩
  · intro hyy
    rw [hs] at hyy
    subst hyy
    rw [resetPx_getD, hs, if_pos (by omega)]
  · intro hyy
    rw [hs] at hyy
    have hylt : y < h' := by omega
    have h2 : (y + 1) * w ≤ h' * w := Nat.mul_le_mul_right w (by omega)
    have h3 : (y + 1) * w = y * w + w := by ring
    rw [resetPx_getD, hs, if_neg (by omega)]

theorem reset_grid_witness :
    (resetPx 4 4).length = 4 * 4 ∧
    (3 = 4 - 1 → (resetPx 4 4).getD (3 * 4 + 0) 0 = 36) ∧
    (3 ≠ 4 - 1 → (resetPx 4 4).getD (3 * 4 + 0) 0 = 0) :=
  reset_grid 4 4 0 3 (by decide) (by decide)

/-- C4: for every grid whose intensities lie in `[0, 36]` and every
37-entry palette (with 8-bit channels), `render` produces for each cell an
all-zero pixel with alpha 0 when the intensity is 0 (regardless of the
palette RGB at index 0), and `palette[intensity]` with alpha 255 when the
intensity is positive. -/
theorem render_transparency (pal : Pal) (px : List Nat)
    (hlen : pal.length = 37)
    (hpx : ∀ v ∈ px, v ≤ 36)
    (hch : ∀ c ∈ pal, c.1 ≤ 255 ∧ c.2.1 ≤ 255 ∧ c.2.2 ≤ 255) :
    ∃ out, render pal px = some out ∧ out.length = px.length ∧
      ∀ i, i < px.length →
        (px.getD i 0 = 0 → out.getD i [] = [0, 0, 0, 0]) ∧
        (0 < px.getD i 0 →
          out.getD i []
            = [(pal.getD (px.getD i 0) (0, 0, 0)).1,
               (pal.getD (px.getD i 0) (0, 0, 0)).2.1,
               (pal.getD (px.getD i 0) (0, 0, 0)).2.2, 255]) := by
  have hv : ∀ v ∈ px, v < pal.length := by
    intro v hvm
    have := hpx v hvm
    omega
  refine ⟨px.map (renderCell pal), render_eq_map pal px hv,
    List.length_map .., ?_⟩
  intro i hi
  rw [getD_map_renderCell pal px i hi]
  constructor
  · intro h0
    unfold renderCell
    rw [if_pos h0]
  · intro hpos
    unfold renderCell
    rw [if_neg (by omega)]
    have hilt : px.getD i 0 < pal.length := hv _ (getD_mem px i 0 hi)
    obtain ⟨hc1, hc2, hc3⟩ := hch _ (getD_mem pal _ (0, 0, 0) hilt)
    rw [Nat.min_eq_left hc1, Nat.min_eq_left hc2, Nat.min_eq_left hc3]

theorem animate_ok_ticks (rnd : Rnd) (c c' : CtrlSt)
    (h : animate rnd c = .ok c') :
    c'.ticks = c.ticks + 1 ∧ c'.id = some c.nextId := by
  unfold animate at h
  cases hp : rendererSetPallete c.renderer c.pallete with
  | error e =>
    simp only [hp] at h
    exact Except.noConfusion h
  | ok r =>
    simp only [hp] at h
    cases hr : render r.pallete (update r.w r.h rnd r.pixels) with
    | none =>
      simp only [hr] at h
      exact Except.noConfusion h
    | some o =>
      simp only [hr] at h
      cases h
      exact ⟨rfl, rfl⟩

/-- C5 counterexample: assigning a 36-entry palette through the
controller's `pallete` setter raises no error and fully applies the
assignment, contradicting the claim that it throws synchronously at the
point of assignment without applying. -/
theorem controller_set_pallete_no_throw :
    (controllerSetPallete
        ⟨DEFAULT_PALLETE, 30, some 0, 1, 1, ⟨4, 4, DEFAULT_PALLETE, resetPx 4 4⟩⟩
        (List.replicate 36 (0, 0, 0))).pallete = List.replicate 36 (0, 0, 0) ∧
    (List.replicate 36 ((0, 0, 0) : Color)).length = 36 := ⟨rfl, by decide⟩

/-- C5 (amended): the controller's setter stores any palette without
validation and touches nothing else; the length-37 check lives in the
`Renderer`'s `pallete` setter, which throws on any other length and leaves
the renderer unchanged; the stored palette is pushed through that setter at
the start of the next tick (`animate`), so an invalid palette makes the
tick throw before `update` or `render` run and no render uses it. -/
theorem pallete_validation_deferred :
    (∀ (c : CtrlSt) (upd : Pal),
      (controllerSetPallete c upd).pallete = upd ∧
      (controllerSetPallete c upd).renderer = c.renderer) ∧
    (∀ (st : RendererSt) (upd : Pal), upd.length ≠ 37 →
      rendererSetPallete st upd
        = .error "Color pallette must be 37 elements.") ∧
    (∀ (st : RendererSt) (upd : Pal), upd.length = 37 →
      rendererSetPallete st upd = .ok { st with pallete := upd }) ∧
    (∀ (rnd : Rnd) (c : CtrlSt), c.pallete.length ≠ 37 →
      animate rnd c = .error "Color pallette must be 37 elements.") := by
  refine ⟨fun c upd => ⟨rfl, rfl⟩, ?_, ?_, ?_⟩
  · intro st upd h
    unfold rendererSetPallete
    rw [if_pos h]
  · intro st upd h
    unfold rendererSetPallete
    rw [if_neg (fun hne => hne h)]
  · intro rnd c h
    have hset : rendererSetPallete c.renderer c.pallete
        = .error "Color pallette must be 37 elements." := by
      unfold rendererSetPallete
      rw [if_pos h]
    unfold animate
    rw [hset]

theorem pallete_validation_deferred_witness :
    rendererSetPallete ⟨4, 4, DEFAULT_PALLETE, resetPx 4 4⟩
        (List.replicate 36 (0, 0, 0))
      = .error "Color pallette must be 37 elements." :=
  pallete_validation_deferred.2.1 _ _ (by decide)

/-- C6 counterexample: with `scale = 1` on a 4×4 surface, one `update()`
after `reset()` with all draws `(decay 0, direction -1)` writes 36 into
cell 2 of row 0, contradicting the claim that rows 0 and 1 are unaffected
by a single pass. -/
theorem update_affects_row0 :
    (update 4 4 (fun _ _ => (0, false)) (resetPx 4 4)).getD 2 0 = 36 := by
  decide

/-- C6 (amended): with `scale = 1` and a 4×4 surface, `reset()` yields the
stated grid; after a single `update()`, for every choice of draws, the
cells of row 3 in columns 1-3 are unchanged at 36 and every cell stays in
`[0, 36]`; row 3 column 0 can be overwritten (flat-index wrap from the
source at row 3, column 3 drawing `+1`), and rows 0-2 can all change,
because the column-major traversal lets values propagate several rows in
one pass. -/
theorem scenario_4x4 :
    resetPx 4 4 = [0,0,0,0, 0,0,0,0, 0,0,0,0, 36,36,36,36] ∧
    ∀ (rnd : Rnd),
      (update 4 4 rnd (resetPx 4 4)).getD 13 0 = 36 ∧
      (update 4 4 rnd (resetPx 4 4)).getD 14 0 = 36 ∧
      (update 4 4 rnd (resetPx 4 4)).getD 15 0 = 36 ∧
      ∀ i, (update 4 4 rnd (resetPx 4 4)).getD i 0 ≤ 36 := by
  refine ⟨by decide, fun rnd =>
    ⟨?_, ?_, ?_, update_le 4 4 rnd _ (resetPx_le 4 4)⟩⟩
  · rw [update_getD_high 4 4 rnd _ 13 (by decide)]
    decide
  · rw [update_getD_high 4 4 rnd _ 14 (by decide)]
    decide
  · rw [update_getD_high 4 4 rnd _ 15 (by decide)]
    decide

/-- C7 counterexample: `burn()` itself calls `controller.start()` before
returning, so a freshly constructed controller is already Running with one
tick performed — not Stopped awaiting a caller's `start()`. -/
theorem burn_starts_running :
    ((burn 2 2 ⟨some 1, none, none, none⟩ (fun _ _ => (0, false))).toOption.map
      (fun c => (c.id, c.ticks))) = some (some 0, 1) := by
  simp only [burn, burnGridHeight, Option.getD, gridDim_one]
  decide

/-- C7 (amended): `burn()` returns a controller that is already Running
(its timer id is set) with exactly one tick performed, because `burn()`
invokes `start()` itself; `start()` is a no-op when a timer id exists,
runs `animate()` when stopped, and a successful `animate()` performs one
tick (update + render) and schedules the next. -/
theorem start_semantics :
    (∀ (cw ch : Nat) (opts : BurnOptions) (rnd : Rnd) (c : CtrlSt),
      burn cw ch opts rnd = .ok c → c.id ≠ none ∧ c.ticks = 1) ∧
    (∀ (rnd : Rnd) (c : CtrlSt), c.id ≠ none → start rnd c = .ok c) ∧
    (∀ (rnd : Rnd) (c : CtrlSt), c.id = none → start rnd c = animate rnd c) ∧
    (∀ (rnd : Rnd) (c c' : CtrlSt), animate rnd c = .ok c' →
      c'.ticks = c.ticks + 1 ∧ c'.id ≠ none) := by
  refine ⟨?_, ?_, ?_, ?_⟩
  · intro cw ch opts rnd c h
    simp only [burn] at h
    cases hri : rendererInit (gridDim cw (opts.scale.getD (7 / 2)))
        (burnGridHeight ch opts) (opts.pallete.getD DEFAULT_PALLETE) with
    | error e =>
      simp only [hri] at h
      exact Except.noConfusion h
    | ok r =>
      simp only [hri] at h
      unfold start at h
      simp only [Option.isSome_none, Bool.false_eq_true, if_false] at h
      obtain ⟨ht, hid⟩ := animate_ok_ticks rnd _ c h
      refine ⟨?_, ht⟩
      rw [hid]
      simp
  · intro rnd c hc
    unfold start
    rw [if_pos (Option.ne_none_iff_isSome.mp hc)]
  · intro rnd c hc
    unfold start
    rw [if_neg (by rw [hc]; simp)]
  · intro rnd c c' h
    obtain ⟨ht, hid⟩ := animate_ok_ticks rnd c c' h
    refine ⟨ht, ?_⟩
    rw [hid]
    simp

theorem start_semantics_witness :
    start (fun _ _ => (0, false))
        ⟨DEFAULT_PALLETE, 30, some 0, 1, 1, ⟨4, 4, DEFAULT_PALLETE, resetPx 4 4⟩⟩
      = .ok ⟨DEFAULT_PALLETE, 30, some 0, 1, 1,
          ⟨4, 4, DEFAULT_PALLETE, resetPx 4 4⟩⟩ :=
  start_semantics.2.1 (fun _ _ => (0, false))
    ⟨DEFAULT_PALLETE, 30, some 0, 1, 1, ⟨4, 4, DEFAULT_PALLETE, resetPx 4 4⟩⟩
    (by decide)

/-- C8 (code bug): the `height` option is never read by `burn()` — the
destructuring reads only `scale`, `interval` and `pallete` — so the grid
height always comes from the canvas height divided by scale (floored),
even when `height` is supplied. -/
theorem height_option_ignored :
    burnGridHeight 100 ⟨some 1, none, some 5, none⟩ = 100 ∧
    ∀ (ch : Nat) (sc : Option ℚ) (iv : Option Nat) (hA hB : Option Nat)
      (pal : Option Pal),
      burnGridHeight ch ⟨sc, iv, hA, pal⟩ = burnGridHeight ch ⟨sc, iv, hB, pal⟩ := by
  refine ⟨?_, fun ch sc iv hA hB pal => rfl⟩
  simp only [burnGridHeight, Option.getD, gridDim_one]

/-- C9: for a source cell in the last column (`x = width-1`) of any row `y`
whose direction draw is `+1`, the computed destination index is `y*width`
— column 0 of the same row, not a cell in the row above; in particular a
single `update()` can overwrite a bottom-row cell, reducing it below 36
(here to 34). -/
theorem wraparound_dest (w y : Nat) (hw : 1 ≤ w) :
    spreadDest w (y * w + (w - 1)) true = ((y * w : Nat) : Int) ∧
    (update 4 4 (fun x y' => if x = 3 ∧ y' = 3 then (2, true) else (0, false))
        (resetPx 4 4)).getD 12 0 = 34 ∧
    (34 : Nat) < 36 := by
  refine ⟨?_, by decide, by decide⟩
  unfold spreadDest
  rw [if_pos rfl]
  omega

theorem wraparound_dest_witness :
    spreadDest 4 (3 * 4 + (4 - 1)) true = ((3 * 4 : Nat) : Int) ∧
    (update 4 4 (fun x y' => if x = 3 ∧ y' = 3 then (2, true) else (0, false))
        (resetPx 4 4)).getD 12 0 = 34 ∧
    (34 : Nat) < 36 :=
  wraparound_dest 4 3 (by decide)

/-- C10: `update()` is total and never writes outside the pixel buffer:
it preserves the buffer length for every grid, is the identity on
zero-width and zero-height grids, and an out-of-range destination (the
source at row 1, column 0 drawing direction `-1` computes destination
`-1`) is silently discarded, changing no cell. -/
theorem update_safe :
    (∀ (w h : Nat) (rnd : Rnd) (px : List Nat),
      (update w h rnd px).length = px.length) ∧
    (∀ (h : Nat) (rnd : Rnd) (px : List Nat), update 0 h rnd px = px) ∧
    (∀ (w : Nat) (rnd : Rnd) (px : List Nat), update w 0 rnd px = px) ∧
    (∀ (w d : Nat) (px : List Nat), spread w px w d false = px) := by
  refine ⟨update_length, ?_, ?_, ?_⟩
  · intro h rnd px
    rfl
  · intro w rnd px
    unfold update
    refine foldl_pres (fun q : List Nat => q = px) _ _ rfl ?_
    intro q x _ hq
    exact hq
  · intro w d px
    unfold spread
    rw [if_neg (lt_irrefl w)]
    refine uint8set_neg _ _ _ ?_
    unfold spreadDest
    simp

theorem render_transparency_witness :
    ∃ out, render DEFAULT_PALLETE [0, 36] = some out ∧
      out.length = [0, 36].length ∧
      ∀ i, i < [0, 36].length →
        ([0, 36].getD i 0 = 0 → out.getD i [] = [0, 0, 0, 0]) ∧
        (0 < [0, 36].getD i 0 →
          out.getD i []
            = [(DEFAULT_PALLETE.getD ([0, 36].getD i 0) (0, 0, 0)).1,
               (DEFAULT_PALLETE.getD ([0, 36].getD i 0) (0, 0, 0)).2.1,
               (DEFAULT_PALLETE.getD ([0, 36].getD i 0) (0, 0, 0)).2.2, 255]) :=
  render_transparency DEFAULT_PALLETE [0, 36] (by decide) (by decide)
    (by decide)

end Burn
